import Mathlib

/-!
Shallow embedding of the krdict.py usage-example program (`src/examples.py`):
the result formatter (`_display_view_results`, `_display_results`), the
pagination aggregator (`pagination`), and the top-level driver
(`if __name__ == '__main__'`).

Console output is modelled as a list of printed lines.  A rendering function
returns `(lines, completed)` where `completed = false` means the Python code
faults (out-of-bounds index / missing attribute) after emitting `lines`.
Optional duck-typed fields (`'url' in obj`, `'origin' in result`, ...) are
modelled as `Option` fields, per the data model in the specification.
-/

/-- A translation attached to a definition: `word` is optional
(the code checks `'word' in translation`). -/
structure Translation where
  word : Option String
  definition : String
deriving DecidableEq

/-- An example sentence entry (`example_info` element).  The source attribute
is named `example`, a keyword in Lean, hence `example_text`. -/
structure ExampleInfo where
  example_text : String
deriving DecidableEq

/-- A multimedia entry (`multimedia_info` element).  `content_urls` is present
only in scraped responses (`'content_urls' in multimedia`). -/
structure Multimedia where
  content_urls : Option (List String)
  url : String
  type : String
deriving DecidableEq

/-- A definition entry carrying its translations, examples and multimedia. -/
structure Definition where
  definition : String
  translations : List Translation
  example_info : List ExampleInfo
  multimedia_info : List Multimedia
deriving DecidableEq

/-- One `original_language_info` fragment. -/
structure OriginalLanguageInfo where
  original_language : String
deriving DecidableEq

/-- One `pronunciation_info` entry; `url` is optional
(the code checks `'url' in pronunciation_obj`). -/
structure PronunciationInfo where
  pronunciation : String
  url : Option String
deriving DecidableEq

/-- The `word_info` object of a view result. -/
structure WordInfo where
  word : String
  part_of_speech : String
  original_language_info : List OriginalLanguageInfo
  pronunciation_info : List PronunciationInfo
  definition_info : List Definition
deriving DecidableEq

/-- One element of a view response's `results`. -/
structure ViewResult where
  word_info : WordInfo
deriving DecidableEq

/-- The `data` object of a view / scraped-view response. -/
structure ViewData where
  url : String
  results : List ViewResult
deriving DecidableEq

/-- A result entry of a definition-search response: `definition_info` is a
single definition object, not a list. -/
structure DefEntry where
  word : String
  origin : Option String
  definition_info : Definition
deriving DecidableEq

/-- A result entry of every other list-shaped response: `definitions` is a
list indexed with `[0]`. -/
structure WordEntry where
  word : String
  origin : Option String
  definitions : List Definition
deriving DecidableEq

/-- The `data` object of a list-shaped (non-view) response.  The
`isinstance(response, krdict.DefinitionResponse)` test of the source becomes
the case split of this sum. -/
inductive ListData where
  | defData (total_results : Nat) (results : List DefEntry)
  | wordData (total_results : Nat) (results : List WordEntry)
deriving DecidableEq

/-- The payload of a response: view-shaped or list-shaped. -/
inductive ResponseData where
  | viewD (data : ViewData)
  | listD (data : ListData)
deriving DecidableEq

/-- A response as consumed by `_display_results`: a `response_type` tag
string and the `data` payload. -/
structure Response where
  response_type : String
  data : ResponseData
deriving DecidableEq

/-- `total_results` of a list-shaped data object. -/
def ListData.total_results : ListData → Nat
  | .defData t _ => t
  | .wordData t _ => t

/-- The `reduce(lambda x, y: x + y.original_language, ..., '')` fold of
`_display_view_results`. -/
def viewOrigin (infos : List OriginalLanguageInfo) : String :=
  infos.foldl (fun x y => x ++ y.original_language) ""

/-- One iteration of the pronunciation-building loop of
`_display_view_results` (lines 28-34 of the source). -/
def pronStep (acc : List String) (p : PronunciationInfo) : List String :=
  let acc1 := if acc ≠ [] then acc ++ ["/"] else acc
  let acc2 := acc1 ++ [p.pronunciation]
  match p.url with
  | some u => acc2 ++ [" (" ++ u ++ ")"]
  | none => acc2

/-- The pronunciation fragment list built by `_display_view_results`. -/
def buildPronunciation (infos : List PronunciationInfo) : List String :=
  infos.foldl pronStep []

/-- The header line printed by `_display_view_results` (lines 36-40). -/
def viewHeader (wi : WordInfo) : String :=
  wi.word ++ " 「" ++ wi.part_of_speech ++ "」"
    ++ (if viewOrigin wi.original_language_info ≠ "" then
          " (" ++ viewOrigin wi.original_language_info ++ ")" else "")
    ++ (if buildPronunciation wi.pronunciation_info ≠ [] then
          " [" ++ String.join (buildPronunciation wi.pronunciation_info) ++ "]"
        else "")

/-- The numbered first line of a definition block (lines 44-54). -/
def definitionHeadLine (idx : Nat) (dfn : Definition) : String :=
  let lines : List String :=
    match dfn.translations with
    | [] => [dfn.definition]
    | t :: _ =>
      (match t.word with | some w => [w] | none => []) ++
        ["\n   " ++ dfn.definition, "\n   " ++ t.definition]
  toString (idx + 1) ++ ". " ++ String.join lines

/-- The example-sentence loop of `_display_view_results` (lines 56-60):
`i` is the `enumerate` counter; at `i == 5` a marker is printed and the
loop breaks. -/
def exampleLines : Nat → List ExampleInfo → List String
  | _, [] => []
  | i, e :: rest =>
    if i = 5 then ["   • ..."]
    else ("   • " ++ e.example_text) :: exampleLines (i + 1) rest

/-- The line printed for a single multimedia entry (lines 67-71). -/
def multimediaLine (m : Multimedia) : String :=
  match m.content_urls with
  | some urls =>
    if urls ≠ [] then
      "   ► " ++ String.intercalate "," urls ++ " (" ++ m.type ++ ")"
    else "   ► " ++ m.url ++ " (" ++ m.type ++ ")"
  | none => "   ► " ++ m.url ++ " (" ++ m.type ++ ")"

/-- The multimedia loop of `_display_view_results` (lines 62-71). -/
def multimediaLines : Nat → List Multimedia → List String
  | _, [] => []
  | i, m :: rest =>
    if i = 5 then ["   ► ..."]
    else multimediaLine m :: multimediaLines (i + 1) rest

/-- All lines printed for one definition of a view result. -/
def definitionBlock (idx : Nat) (dfn : Definition) : List String :=
  definitionHeadLine idx dfn ::
    (exampleLines 0 dfn.example_info ++ multimediaLines 0 dfn.multimedia_info)

/-- The `enumerate` loop over `definition_info` (line 44). -/
def definitionBlocks : Nat → List Definition → List String
  | _, [] => []
  | idx, d :: rest => definitionBlock idx d ++ definitionBlocks (idx + 1) rest

/-- `_display_view_results`: accesses `data.results[0]` first; on an empty
`results` list Python raises `IndexError` before printing anything, modelled
as `([], false)`. -/
def displayViewResults (data : ViewData) : List String × Bool :=
  match data.results with
  | [] => ([], false)
  | result :: _ =>
    (viewHeader result.word_info :: data.url ::
       definitionBlocks 0 result.word_info.definition_info, true)

/-- The `origin_info` string of `_display_results` (line 88):
`f' ({result.origin})' if 'origin' in result and result.origin else ''`. -/
def originInfo : Option String → String
  | some o => if o ≠ "" then " (" ++ o ++ ")" else ""
  | none => ""

/-- The per-result line of the list renderer (line 89). -/
def resultLine (idx : Nat) (word origin_part dfnText : String) : String :=
  toString (idx + 1) ++ ". " ++ word ++ origin_part ++ ": " ++ dfnText

/-- The translation loop of the list renderer (lines 91-92).  Accessing a
missing `word` attribute faults (`ok = false`) after the earlier lines. -/
def translationLines : List Translation → List String × Bool
  | [] => ([], true)
  | t :: rest =>
    match t.word with
    | none => ([], false)
    | some w =>
      let p := translationLines rest
      (("   " ++ w ++ ": " ++ t.definition) :: p.1, p.2)

/-- Lines for one definition-search result entry. -/
def defEntryLines (idx : Nat) (e : DefEntry) : List String × Bool :=
  let p := translationLines e.definition_info.translations
  (resultLine idx e.word (originInfo e.origin) e.definition_info.definition
     :: p.1, p.2)

/-- Lines for one ordinary search result entry; `definitions[0]` faults when
the list is empty. -/
def wordEntryLines (idx : Nat) (e : WordEntry) : List String × Bool :=
  match e.definitions with
  | [] => ([], false)
  | first_dfn :: _ =>
    let p := translationLines first_dfn.translations
    (resultLine idx e.word (originInfo e.origin) first_dfn.definition
       :: p.1, p.2)

/-- The `enumerate` loop over list-renderer results, stopping at a fault. -/
def entryBlocks {ε : Type} (f : Nat → ε → List String × Bool) :
    Nat → List ε → List String × Bool
  | _, [] => ([], true)
  | idx, e :: rest =>
    let p := f idx e
    if p.2 then
      let q := entryBlocks f (idx + 1) rest
      (p.1 ++ q.1, q.2)
    else (p.1, false)

/-- The list renderer: the `Total Results:` summary line, then the result
entries (lines 78-92 of the source). -/
def displayListResults : ListData → List String × Bool
  | .defData total results =>
    let p := entryBlocks defEntryLines 0 results
    (("Total Results: " ++ toString total) :: p.1, p.2)
  | .wordData total results =>
    let p := entryBlocks wordEntryLines 0 results
    (("Total Results: " ++ toString total) :: p.1, p.2)

/-- `_display_results` (lines 73-92): dispatch on the `response_type` tag; a
payload whose shape does not match the taken branch faults immediately. -/
def displayResults (r : Response) : List String × Bool :=
  if r.response_type = "view" ∨ r.response_type = "scraped_view" then
    match r.data with
    | .viewD d => displayViewResults d
    | .listD _ => ([], false)
  else
    match r.data with
    | .listD d => displayListResults d
    | .viewD _ => ([], false)

/-- The error raised by the external client when `raise_api_errors=True`
(`krdict.KRDictException` — the spec's `DomainError`). -/
structure DomainError where
  desc : String
deriving DecidableEq

/-- The `data` object of one fetched search page, as read by `pagination`:
the authoritative `total_results`, the echoed `page` and `per_page`, and the
page's `results`.  `α` abstracts the result entries. -/
structure PageData (α : Type) where
  total_results : Nat
  page : Nat
  per_page : Nat
  results : List α
deriving DecidableEq

/-- The local variables of the `pagination` loop, plus two ghost observation
fields: `fetches` counts the `krdict.search` calls issued, and
`hasNextTrace` records the successive values assigned to `has_next`. -/
structure PagState (α : Type) where
  page : Nat
  results : List α
  has_next : Bool
  total_results : Nat
  fetches : Nat
  hasNextTrace : List Bool
deriving DecidableEq

/-- The initial state of `pagination` (lines 101-104 of the source). -/
def initState (α : Type) : PagState α :=
  { page := 1, results := [], has_next := true, total_results := 0,
    fetches := 0, hasNextTrace := [] }

/-- One iteration of the `pagination` loop body after a successful fetch
(lines 107-113): store `data.total_results`, advance the local page counter,
append the page's results, and recompute
`has_next = data.per_page * data.page < total_results` from the echoed
fields of the response. -/
def pagStep {α : Type} (s : PagState α) (d : PageData α) : PagState α :=
  { page := s.page + 1,
    results := s.results ++ d.results,
    has_next := decide (d.per_page * d.page < d.total_results),
    total_results := d.total_results,
    fetches := s.fetches + 1,
    hasNextTrace := s.hasNextTrace ++
      [decide (d.per_page * d.page < d.total_results)] }

/-- The `while has_next:` loop of `pagination`, with explicit fuel.  A fetch
that raises a `DomainError` is not caught: the error propagates.  The second
component of a normal result records whether the loop actually terminated
(`true`) or the fuel ran out (`false`). -/
def paginationLoop {α : Type} (fetch : Nat → Except DomainError (PageData α)) :
    Nat → PagState α → Except DomainError (PagState α × Bool)
  | 0, s => .ok (s, false)
  | fuel + 1, s =>
    if s.has_next then
      match fetch s.page with
      | .error e => .error e
      | .ok d => paginationLoop fetch fuel (pagStep s d)
    else .ok (s, true)

/-- Wraps a total page function as a never-failing fetch. -/
def okFetch {α : Type} (f : Nat → PageData α) :
    Nat → Except DomainError (PageData α) :=
  fun p => .ok (f p)

/-- The fetch oracle assumed by the pagination-completeness property: page
`p` echoes the requested page number and page size and returns exactly
`min P (T - (p-1)·P)` entries; entries are numbered consecutively so that
the full collection is `List.range T`. -/
def specFetch (T P p : Nat) : PageData Nat :=
  { total_results := T, page := p, per_page := P,
    results := List.range' ((p - 1) * P) (min P (T - (p - 1) * P)) }

/-- `ceil(T / P)` on naturals. -/
def ceilPages (T P : Nat) : Nat := (T + P - 1) / P

/-- Names bound at module level of `examples.py`: `from functools import
reduce`, `import os`, `import sys`, `import asyncio`, `import krdict` (the
optional `dotenv` import is irrelevant here).  `requests` is not among
them. -/
def moduleBoundNames : List String := ["reduce", "os", "sys", "asyncio", "krdict"]

/-- Observable outcome of the `if __name__ == '__main__':` driver. -/
inductive DriverOutcome where
  | exitZero
  | exitNonZeroWithMessage (msg : String)
  | uncaught (excName : String)
deriving DecidableEq

/-- The top-level driver (lines 384-388).  When `_run_examples()` raises,
Python evaluates the tuple `(krdict.KRDictException, requests.RequestException)`
of the `except` clause; resolving an unbound name there raises `NameError`,
so the handler applies only if both `krdict` and `requests` are bound at
module level. -/
def runDriverTop (runResult : Except DomainError Unit) : DriverOutcome :=
  match runResult with
  | .ok _ => .exitZero
  | .error e =>
    if "krdict" ∈ moduleBoundNames then
      if "requests" ∈ moduleBoundNames then
        .exitNonZeroWithMessage e.desc
      else .uncaught "NameError"
    else .uncaught "NameError"

lemma exampleLines_eq_take (es : List ExampleInfo) : ∀ i, i ≤ 5 →
    exampleLines i es =
      (es.take (5 - i)).map (fun e => "   • " ++ e.example_text) ++
        (if 5 - i < es.length then ["   • ..."] else []) := by
  induction es with
  | nil => intro i _; simp [exampleLines]
  | cons e rest ih =>
    intro i hi
    by_cases h5 : i = 5
    · subst h5; simp [exampleLines]
    · have hi' : i + 1 ≤ 5 := by omega
      have hsplit : 5 - i = (5 - (i + 1)) + 1 := by omega
      rw [exampleLines, if_neg h5, ih (i + 1) hi', hsplit]
      simp only [List.take_succ_cons, List.map_cons, List.length_cons,
        List.cons_append, Nat.add_lt_add_iff_right]

lemma multimediaLines_eq_take (ms : List Multimedia) : ∀ i, i ≤ 5 →
    multimediaLines i ms =
      (ms.take (5 - i)).map multimediaLine ++
        (if 5 - i < ms.length then ["   ► ..."] else []) := by
  induction ms with
  | nil => intro i _; simp [multimediaLines]
  | cons m rest ih =>
    intro i hi
    by_cases h5 : i = 5
    · subst h5; simp [multimediaLines]
    · have hi' : i + 1 ≤ 5 := by omega
      have hsplit : 5 - i = (5 - (i + 1)) + 1 := by omega
      rw [multimediaLines, if_neg h5, ih (i + 1) hi', hsplit]
      simp only [List.take_succ_cons, List.map_cons, List.length_cons,
        List.cons_append, Nat.add_lt_add_iff_right]

/-- C2: for a definition with `N` example entries the detail renderer emits
exactly the first `min N 5` examples as bulleted lines, followed by exactly
one `...` truncation-marker line iff `N > 5` (so never a sixth real example
and no marker otherwise); the same law holds for multimedia entries with the
`►` marker glyph. -/
theorem truncation_bound (es : List ExampleInfo) (ms : List Multimedia) :
    exampleLines 0 es =
      (es.take 5).map (fun e => "   • " ++ e.example_text) ++
        (if 5 < es.length then ["   • ..."] else [])
    ∧ (exampleLines 0 es).length =
        min es.length 5 + (if 5 < es.length then 1 else 0)
    ∧ multimediaLines 0 ms =
        (ms.take 5).map multimediaLine ++
          (if 5 < ms.length then ["   ► ..."] else [])
    ∧ (multimediaLines 0 ms).length =
        min ms.length 5 + (if 5 < ms.length then 1 else 0) := by
  have he := exampleLines_eq_take es 0 (by omega)
  have hm := multimediaLines_eq_take ms 0 (by omega)
  simp only [Nat.sub_zero] at he hm
  refine ⟨he, ?_, hm, ?_⟩
  · rw [he]; by_cases h : 5 < es.length <;>
      simp [h, List.length_take] <;> omega
  · rw [hm]; by_cases h : 5 < ms.length <;>
      simp [h, List.length_take] <;> omega

/-- C9: the comma-joined `content_urls` form is used only when the field is
present and non-empty; a present-but-empty `content_urls` (and likewise an
absent one) falls back to the single `url` field followed by the type tag. -/
theorem multimedia_content_urls_fallback (m : Multimedia) :
    (m.content_urls = some [] →
       multimediaLine m = "   ► " ++ m.url ++ " (" ++ m.type ++ ")")
    ∧ (m.content_urls = none →
       multimediaLine m = "   ► " ++ m.url ++ " (" ++ m.type ++ ")")
    ∧ (∀ u us, m.content_urls = some (u :: us) →
       multimediaLine m =
         "   ► " ++ String.intercalate "," (u :: us) ++ " (" ++ m.type ++ ")") := by
  refine ⟨fun h => ?_, fun h => ?_, fun u us h => ?_⟩ <;>
    simp [multimediaLine, h]

/-- C9 witness: a concrete multimedia entry whose `content_urls` is present
but empty renders through the `url` fallback. -/
theorem multimedia_content_urls_fallback_witness :
    (Multimedia.mk (some []) "https://a.example/img.jpg" "사진").content_urls = some []
    ∧ multimediaLine (Multimedia.mk (some []) "https://a.example/img.jpg" "사진") =
        "   ► " ++ "https://a.example/img.jpg" ++ " (" ++ "사진" ++ ")" :=
  ⟨rfl, (multimedia_content_urls_fallback _).1 rfl⟩

/-- C8: on a view-tagged response whose `results` sequence is empty, the
detail renderer faults at the initial `data.results[0]` access, producing no
output line at all. -/
theorem view_renderer_requires_nonempty (r : Response) (d : ViewData)
    (ht : r.response_type = "view" ∨ r.response_type = "scraped_view")
    (hd : r.data = ResponseData.viewD d) (he : d.results = []) :
    displayResults r = ([], false) ∧ displayViewResults d = ([], false) := by
  have h2 : displayViewResults d = ([], false) := by
    simp [displayViewResults, he]
  refine ⟨?_, h2⟩
  simp only [displayResults, if_pos ht, hd]
  exact h2

/-- C8 witness: a concrete empty view response. -/
theorem view_renderer_requires_nonempty_witness :
    ((Response.mk "view" (ResponseData.viewD (ViewData.mk "https://kr.example" []))).response_type = "view"
       ∨ (Response.mk "view" (ResponseData.viewD (ViewData.mk "https://kr.example" []))).response_type = "scraped_view")
    ∧ displayResults (Response.mk "view" (ResponseData.viewD (ViewData.mk "https://kr.example" []))) = ([], false)
    ∧ displayViewResults (ViewData.mk "https://kr.example" []) = ([], false) := by
  refine ⟨Or.inl rfl, ?_, ?_⟩
  · exact (view_renderer_requires_nonempty _ _ (Or.inl rfl) rfl rfl).1
  · exact (view_renderer_requires_nonempty
      (Response.mk "view" (ResponseData.viewD (ViewData.mk "https://kr.example" [])))
      _ (Or.inl rfl) rfl rfl).2

/-- C4: a response tagged `view` or `scraped_view` is rendered by the detail
renderer; any other tag is rendered by the list renderer, whose first
rendered line is the `Total Results:` summary line (which the detail-render
path never executes). -/
theorem variant_branching (r : Response) (d : ViewData) (l : ListData) :
    ((r.response_type = "view" ∨ r.response_type = "scraped_view") →
       r.data = ResponseData.viewD d → displayResults r = displayViewResults d)
    ∧ (¬(r.response_type = "view" ∨ r.response_type = "scraped_view") →
       r.data = ResponseData.listD l →
       displayResults r = displayListResults l ∧
         (displayListResults l).1.head? =
           some ("Total Results: " ++ toString l.total_results)) := by
  constructor
  · intro ht hd
    simp only [displayResults, if_pos ht, hd]
  · intro ht hd
    constructor
    · simp only [displayResults, if_neg ht, hd]
    · cases l <;> rfl

/-- C4 witness: a concrete response with an ordinary (non-view) tag goes to
the list renderer and leads with the summary line. -/
theorem variant_branching_witness :
    ¬((Response.mk "word" (ResponseData.listD (ListData.wordData 3 []))).response_type = "view"
       ∨ (Response.mk "word" (ResponseData.listD (ListData.wordData 3 []))).response_type = "scraped_view")
    ∧ displayResults (Response.mk "word" (ResponseData.listD (ListData.wordData 3 []))) =
        displayListResults (ListData.wordData 3 [])
    ∧ (displayListResults (ListData.wordData 3 [])).1.head? =
        some ("Total Results: " ++ toString (ListData.wordData 3 []).total_results) := by
  have hne : ¬((Response.mk "word" (ResponseData.listD (ListData.wordData 3 []))).response_type = "view"
       ∨ (Response.mk "word" (ResponseData.listD (ListData.wordData 3 []))).response_type = "scraped_view") := by
    decide
  exact ⟨hne, (variant_branching _ (ViewData.mk "" []) _).2 hne rfl⟩

lemma translationLines_all_some (ts : List Translation)
    (h : ∀ t ∈ ts, t.word.isSome) :
    translationLines ts =
      (ts.map (fun t => "   " ++ t.word.getD "" ++ ": " ++ t.definition), true) := by
  induction ts with
  | nil => rfl
  | cons t rest ih =>
    have ht : t.word.isSome := h t (by simp)
    obtain ⟨w, hw⟩ := Option.isSome_iff_exists.mp ht
    have hrest := ih (fun t' ht' => h t' (by simp [ht']))
    simp [translationLines, hw, hrest]

lemma originInfo_empty_iff (o : Option String) :
    originInfo o = "" ↔ o = none ∨ o = some "" := by
  cases o with
  | none => simp [originInfo]
  | some s =>
    by_cases hs : s = ""
    · subst hs; simp [originInfo]
    · have hne : " (" ++ s ++ ")" ≠ "" := by
        intro hc
        have hd := congrArg String.data hc
        rw [String.data_append, String.data_append] at hd
        have h1 : " (".data = [' ', '('] := rfl
        have h2 : ("" : String).data = [] := rfl
        rw [h1, h2] at hd
        simp at hd
      simp [originInfo, hs, hne]

/-- C6: a list-rendered result line consists of the 1-based index, the
headword, a parenthesized origin annotation omitted exactly when the origin
field is absent or empty, and the first definition's text (taken from the
entry's own `definition_info` field for definition-search responses, from
`definitions[0]` otherwise); beneath it every translation of that first
definition is rendered, untruncated, as a `word: definition` line. -/
theorem list_renderer_entry (idx : Nat) (e : DefEntry) (w : WordEntry)
    (d0 : Definition) (ds : List Definition)
    (h1 : ∀ t ∈ e.definition_info.translations, t.word.isSome)
    (hw : w.definitions = d0 :: ds)
    (h2 : ∀ t ∈ d0.translations, t.word.isSome) :
    defEntryLines idx e =
      (resultLine idx e.word (originInfo e.origin) e.definition_info.definition ::
         e.definition_info.translations.map
           (fun t => "   " ++ t.word.getD "" ++ ": " ++ t.definition), true)
    ∧ wordEntryLines idx w =
      (resultLine idx w.word (originInfo w.origin) d0.definition ::
         d0.translations.map
           (fun t => "   " ++ t.word.getD "" ++ ": " ++ t.definition), true)
    ∧ (originInfo e.origin = "" ↔ e.origin = none ∨ e.origin = some "") := by
  refine ⟨?_, ?_, originInfo_empty_iff e.origin⟩
  · simp [defEntryLines, translationLines_all_some _ h1]
  · simp [wordEntryLines, hw, translationLines_all_some _ h2]

/-- C6 witness: a concrete definition-search entry (origin present) and a
concrete word entry (origin empty, hence omitted). -/
theorem list_renderer_entry_witness :
    (∀ t ∈ (Definition.mk "나무의 뜻" [Translation.mk (some "tree") "a woody plant"] [] []).translations,
       t.word.isSome)
    ∧ (WordEntry.mk "나무" (some "") [Definition.mk "나무의 뜻" [Translation.mk (some "tree") "a woody plant"] [] []]).definitions
        = Definition.mk "나무의 뜻" [Translation.mk (some "tree") "a woody plant"] [] [] :: []
    ∧ defEntryLines 0 (DefEntry.mk "나무" (some "木") (Definition.mk "나무의 뜻" [Translation.mk (some "tree") "a woody plant"] [] [])) =
        (resultLine 0 "나무" (originInfo (some "木")) "나무의 뜻" ::
           [Translation.mk (some "tree") "a woody plant"].map
             (fun t => "   " ++ t.word.getD "" ++ ": " ++ t.definition), true)
    ∧ wordEntryLines 0 (WordEntry.mk "나무" (some "") [Definition.mk "나무의 뜻" [Translation.mk (some "tree") "a woody plant"] [] []]) =
        (resultLine 0 "나무" (originInfo (some "")) "나무의 뜻" ::
           [Translation.mk (some "tree") "a woody plant"].map
             (fun t => "   " ++ t.word.getD "" ++ ": " ++ t.definition), true)
    ∧ (originInfo (some "木") = "" ↔ (some "木" : Option String) = none ∨ (some "木" : Option String) = some "") := by
  have h := list_renderer_entry 0
    (DefEntry.mk "나무" (some "木") (Definition.mk "나무의 뜻" [Translation.mk (some "tree") "a woody plant"] [] []))
    (WordEntry.mk "나무" (some "") [Definition.mk "나무의 뜻" [Translation.mk (some "tree") "a woody plant"] [] []])
    (Definition.mk "나무의 뜻" [Translation.mk (some "tree") "a woody plant"] [] []) []
    (by decide) rfl (by decide)
  exact ⟨by decide, rfl, h.1, h.2.1, h.2.2⟩

/-- C10: the continuation predicate computed by the loop body depends only
on the `page` and `per_page` echoed inside the fetched response (and its
`total_results`), never on the locally maintained request counter; and
`pagStep` is exactly the state transformation the loop applies after a
successful fetch.  The final conjunct shows a response echoing
`page=1, per_page=20, total=100` forcing `has_next = true` from a local
state already at page 7 (the requested values would give `20·7 < 100`,
i.e. `false`). -/
theorem continuation_uses_echoed_values :
    (∀ (s : PagState Nat) (d : PageData Nat),
       (pagStep s d).has_next = decide (d.per_page * d.page < d.total_results))
    ∧ (∀ (s₁ s₂ : PagState Nat) (d : PageData Nat),
       (pagStep s₁ d).has_next = (pagStep s₂ d).has_next)
    ∧ (∀ (fetch : Nat → Except DomainError (PageData Nat)) (fuel : Nat)
         (s : PagState Nat) (d : PageData Nat), s.has_next = true →
         fetch s.page = Except.ok d →
         paginationLoop fetch (fuel + 1) s = paginationLoop fetch fuel (pagStep s d))
    ∧ (pagStep (PagState.mk 7 ([] : List Nat) true 0 0 [])
         (PageData.mk 100 1 20 [])).has_next = true := by
  refine ⟨fun s d => rfl, fun s₁ s₂ d => rfl, ?_, by decide⟩
  intro fetch fuel s d hs hf
  simp [paginationLoop, hs, hf]

/-- C10 witness: one unrolling of the loop at a concrete state and fetch. -/
theorem continuation_uses_echoed_values_witness :
    (initState Nat).has_next = true
    ∧ okFetch (specFetch 45 20) (initState Nat).page = Except.ok (specFetch 45 20 1)
    ∧ paginationLoop (okFetch (specFetch 45 20)) (0 + 1) (initState Nat) =
        paginationLoop (okFetch (specFetch 45 20)) 0
          (pagStep (initState Nat) (specFetch 45 20 1)) :=
  ⟨rfl, rfl, continuation_uses_echoed_values.2.2.1 _ 0 _ _ rfl rfl⟩

/-- C5: evaluation of the error path.  A `DomainError` raised by a fetch is
propagated unchanged by the pagination loop (no catch, no retry), but at the
top level the `except` clause of the driver names `requests.RequestException`
while `requests` is never imported, so handling the error raises `NameError`
and the driver never reaches `sys.exit(str(exc))` — it does not print the
error's description as the claim states. -/
theorem driver_error_handling_bug :
    paginationLoop (fun _ => (Except.error (DomainError.mk "API error") :
        Except DomainError (PageData Nat))) 5 (initState Nat) =
      Except.error (DomainError.mk "API error")
    ∧ runDriverTop (Except.error (DomainError.mk "API error")) =
        DriverOutcome.uncaught "NameError"
    ∧ DriverOutcome.uncaught "NameError" ≠
        DriverOutcome.exitNonZeroWithMessage "API error"
    ∧ "requests" ∉ moduleBoundNames := by
  refine ⟨rfl, rfl, by decide, by decide⟩

def countSlash (s : String) : Nat := s.data.count '/'

def sumSlash (l : List String) : Nat := (l.map countSlash).sum

lemma countSlash_append (a b : String) :
    countSlash (a ++ b) = countSlash a + countSlash b := by
  simp [countSlash, String.data_append, List.count_append]

lemma countSlash_foldl (l : List String) : ∀ s : String,
    countSlash (l.foldl (fun r t => r ++ t) s) = countSlash s + sumSlash l := by
  induction l with
  | nil => intro s; simp [sumSlash]
  | cons a rest ih =>
    intro s
    simp only [List.foldl_cons, ih (s ++ a), countSlash_append, sumSlash,
      List.map_cons, List.sum_cons]
    omega

lemma countSlash_join (l : List String) :
    countSlash (String.join l) = sumSlash l := by
  have h : String.join l = l.foldl (fun r t => r ++ t) "" := rfl
  rw [h, countSlash_foldl]
  simp [countSlash]

lemma pronStep_ne_nil (acc : List String) (p : PronunciationInfo) :
    pronStep acc p ≠ [] := by
  unfold pronStep
  cases p.url <;> by_cases h : acc ≠ [] <;> simp [h]

lemma foldl_pronStep_ne_nil (infos : List PronunciationInfo) :
    ∀ acc : List String, acc ≠ [] → infos.foldl pronStep acc ≠ [] := by
  induction infos with
  | nil => intro acc h; simpa using h
  | cons p rest ih =>
    intro acc _
    exact ih (pronStep acc p) (pronStep_ne_nil acc p)

lemma sumSlash_append (a b : List String) :
    sumSlash (a ++ b) = sumSlash a + sumSlash b := by
  simp [sumSlash]

lemma countSlash_url_part (u : String) (hu : countSlash u = 0) :
    countSlash (" (" ++ u ++ ")") = 0 := by
  rw [countSlash_append, countSlash_append, hu]
  have h1 : countSlash " (" = 0 := rfl
  have h2 : countSlash ")" = 0 := rfl
  rw [h1, h2]

lemma sumSlash_pronStep (acc : List String) (p : PronunciationInfo)
    (hp : countSlash p.pronunciation = 0)
    (hu : countSlash (p.url.getD "") = 0) :
    sumSlash (pronStep acc p) =
      sumSlash acc + (if acc ≠ [] then 1 else 0) := by
  unfold pronStep
  cases hurl : p.url with
  | none =>
    by_cases h : acc ≠ [] <;>
      simp [h, sumSlash_append, sumSlash, countSlash, hp] <;>
      simp [countSlash] at hp ⊢ <;> omega
  | some u =>
    rw [hurl] at hu
    simp only [Option.getD_some] at hu
    have hup := countSlash_url_part u hu
    by_cases h : acc ≠ []
    · simp [h, sumSlash_append, sumSlash, hp, hup]
      rfl
    · simp [h, sumSlash_append, sumSlash, hp, hup]

lemma sumSlash_foldl_pronStep (infos : List PronunciationInfo) :
    ∀ acc : List String, acc ≠ [] →
      (∀ p ∈ infos, countSlash p.pronunciation = 0 ∧ countSlash (p.url.getD "") = 0) →
      sumSlash (infos.foldl pronStep acc) = sumSlash acc + infos.length := by
  induction infos with
  | nil => intro acc _ _; simp
  | cons p rest ih =>
    intro acc hacc hfree
    have hp := hfree p (by simp)
    have hstep := sumSlash_pronStep acc p hp.1 hp.2
    rw [List.foldl_cons,
      ih (pronStep acc p) (pronStep_ne_nil acc p)
        (fun q hq => hfree q (by simp [hq])),
      hstep, if_pos hacc]
    simp only [List.length_cons]
    omega

lemma buildPronunciation_ne_nil (infos : List PronunciationInfo)
    (h : infos ≠ []) : buildPronunciation infos ≠ [] := by
  cases infos with
  | nil => exact absurd rfl h
  | cons p rest =>
    unfold buildPronunciation
    rw [List.foldl_cons]
    exact foldl_pronStep_ne_nil rest (pronStep [] p) (pronStep_ne_nil [] p)

lemma sumSlash_buildPronunciation (infos : List PronunciationInfo)
    (hfree : ∀ p ∈ infos, countSlash p.pronunciation = 0 ∧ countSlash (p.url.getD "") = 0)
    (h : infos ≠ []) :
    sumSlash (buildPronunciation infos) = infos.length - 1 := by
  cases infos with
  | nil => exact absurd rfl h
  | cons p rest =>
    have hp := hfree p (by simp)
    have h0 : sumSlash (pronStep [] p) = 0 := by
      rw [sumSlash_pronStep [] p hp.1 hp.2]
      simp [sumSlash]
    unfold buildPronunciation
    rw [List.foldl_cons,
      sumSlash_foldl_pronStep rest (pronStep [] p) (pronStep_ne_nil [] p)
        (fun q hq => hfree q (by simp [hq])),
      h0]
    simp

/-- C3: when none of the pronunciation strings or audio urls themselves
contain a `/` character, the bracketed pronunciation segment of the header
line contains exactly `k - 1` slash separators for `k` pronunciation entries
(each entry carrying an audio url gets `" (url)"` appended), and the
bracketed segment is omitted from the header entirely when `k = 0`. -/
theorem pronunciation_joining (wi : WordInfo)
    (hfree : ∀ p ∈ wi.pronunciation_info,
       countSlash p.pronunciation = 0 ∧ countSlash (p.url.getD "") = 0) :
    (wi.pronunciation_info = [] →
       viewHeader wi = wi.word ++ " 「" ++ wi.part_of_speech ++ "」"
         ++ (if viewOrigin wi.original_language_info ≠ "" then
               " (" ++ viewOrigin wi.original_language_info ++ ")" else ""))
    ∧ (wi.pronunciation_info ≠ [] →
       viewHeader wi = wi.word ++ " 「" ++ wi.part_of_speech ++ "」"
         ++ (if viewOrigin wi.original_language_info ≠ "" then
               " (" ++ viewOrigin wi.original_language_info ++ ")" else "")
         ++ (" [" ++ String.join (buildPronunciation wi.pronunciation_info) ++ "]")
       ∧ countSlash (String.join (buildPronunciation wi.pronunciation_info)) =
           wi.pronunciation_info.length - 1) := by
  constructor
  · intro h
    have hb : buildPronunciation wi.pronunciation_info = [] := by rw [h]; rfl
    simp only [viewHeader, hb]
    simp
  · intro h
    have hb := buildPronunciation_ne_nil _ h
    refine ⟨?_, ?_⟩
    · simp only [viewHeader, if_pos hb]
    · rw [countSlash_join]
      exact sumSlash_buildPronunciation _ hfree h

/-- C3 witness: a concrete word-info with two pronunciation entries, the
first carrying an audio url; the joined bracketed segment contains exactly
one slash. -/
theorem pronunciation_joining_witness :
    (∀ p ∈ (WordInfo.mk "단풍나무" "명사" []
        [PronunciationInfo.mk "단풍나무" (some "audio-1.mp3"),
         PronunciationInfo.mk "단풍나무2" none] []).pronunciation_info,
       countSlash p.pronunciation = 0 ∧ countSlash (p.url.getD "") = 0)
    ∧ (WordInfo.mk "단풍나무" "명사" []
        [PronunciationInfo.mk "단풍나무" (some "audio-1.mp3"),
         PronunciationInfo.mk "단풍나무2" none] []).pronunciation_info ≠ []
    ∧ countSlash (String.join (buildPronunciation
        [PronunciationInfo.mk "단풍나무" (some "audio-1.mp3"),
         PronunciationInfo.mk "단풍나무2" none])) = 2 - 1 := by
  refine ⟨by decide, by decide, ?_⟩
  exact ((pronunciation_joining (WordInfo.mk "단풍나무" "명사" []
        [PronunciationInfo.mk "단풍나무" (some "audio-1.mp3"),
         PronunciationInfo.mk "단풍나무2" none] []) (by decide)).2 (by decide)).2

lemma paginationLoop_concat {α : Type} (f : Nat → PageData α) :
    ∀ (fuel : Nat) (s s' : PagState α) (b : Bool),
      paginationLoop (okFetch f) fuel s = Except.ok (s', b) →
      s.fetches ≤ s'.fetches ∧
        s'.page = s.page + (s'.fetches - s.fetches) ∧
        s'.results = s.results ++
          ((List.range' s.page (s'.fetches - s.fetches)).map
            (fun p => (f p).results)).flatten := by
  intro fuel
  induction fuel with
  | zero =>
    intro s s' b h
    simp only [paginationLoop, Except.ok.injEq, Prod.mk.injEq] at h
    obtain ⟨rfl, -⟩ := h
    simp
  | succ fu ih =>
    intro s s' b h
    by_cases hn : s.has_next = true
    · simp only [paginationLoop, if_pos hn, okFetch] at h
      obtain ⟨h1, h2, h3⟩ := ih (pagStep s (f s.page)) s' b h
      simp only [pagStep] at h1 h2 h3
      refine ⟨by omega, by omega, ?_⟩
      have hd : s'.fetches - s.fetches = (s'.fetches - (s.fetches + 1)) + 1 := by
        omega
      rw [hd, List.range'_succ, List.map_cons, List.flatten_cons, h3,
        List.append_assoc]
    · simp only [paginationLoop, if_neg hn, Except.ok.injEq, Prod.mk.injEq] at h
      obtain ⟨rfl, -⟩ := h
      simp

/-- C7: whenever the aggregator loop terminates normally, its collected
result sequence is exactly the concatenation, in page order starting from
page 1, of the per-page result sequences returned by the fetch function —
i.e. the sequence a single unpaged fetch over the same data would return. -/
theorem pagination_order_preservation {α : Type} (f : Nat → PageData α)
    (fuel : Nat) (s' : PagState α) (b : Bool)
    (h : paginationLoop (okFetch f) fuel (initState α) = Except.ok (s', b)) :
    s'.results = ((List.range' 1 s'.fetches).map (fun p => (f p).results)).flatten := by
  have h3 := (paginationLoop_concat f fuel (initState α) s' b h).2.2
  simpa [initState] using h3

/-- C7 witness: a concrete three-page run (`T = 5`, `P = 2`) whose collected
sequence equals the page-ordered concatenation. -/
theorem pagination_order_preservation_witness :
    paginationLoop (okFetch (specFetch 5 2)) 4 (initState Nat) =
      Except.ok (PagState.mk 4 [0, 1, 2, 3, 4] false 5 3 [true, true, false], true)
    ∧ (PagState.mk 4 ([0, 1, 2, 3, 4] : List Nat) false 5 3
        [true, true, false]).results =
      ((List.range' 1 (PagState.mk 4 ([0, 1, 2, 3, 4] : List Nat) false 5 3
          [true, true, false]).fetches).map
        (fun p => (specFetch 5 2 p).results)).flatten := by
  have h : paginationLoop (okFetch (specFetch 5 2)) 4 (initState Nat) =
      Except.ok (PagState.mk 4 [0, 1, 2, 3, 4] false 5 3 [true, true, false], true) := by
    rfl
  exact ⟨h, pagination_order_preservation (specFetch 5 2) 4 _ true h⟩

lemma lt_ceilPages_iff (T P p : Nat) (hP : 0 < P) :
    p < ceilPages T P ↔ P * p < T := by
  unfold ceilPages
  rw [Nat.lt_iff_add_one_le, Nat.le_div_iff_mul_le hP, Nat.add_mul, Nat.one_mul,
    Nat.mul_comm p P]
  generalize P * p = q
  omega

lemma paginationLoop_specFetch_run (T P : Nat) (hP : 0 < P) :
    ∀ (fuel j : Nat) (acc : List Nat) (t0 k : Nat) (tr : List Bool),
      max (j + 1) (ceilPages T P) + 2 - (j + 1) ≤ fuel →
      paginationLoop (okFetch (specFetch T P)) fuel
          (PagState.mk (j + 1) acc true t0 k tr) =
        Except.ok (PagState.mk (max (j + 1) (ceilPages T P) + 1)
          (acc ++ List.range' (j * P) (T - j * P))
          false T (k + (max (j + 1) (ceilPages T P) - j))
          (tr ++ (List.range' (j + 1) (max (j + 1) (ceilPages T P) - j)).map
            (fun q => decide (P * q < T))), true) := by
  intro fuel
  induction fuel with
  | zero =>
    intro j acc t0 k tr hfuel
    exfalso
    have := Nat.le_max_left (j + 1) (ceilPages T P)
    omega
  | succ fu ih =>
    intro j acc t0 k tr hfuel
    have hstep : paginationLoop (okFetch (specFetch T P)) (fu + 1)
        (PagState.mk (j + 1) acc true t0 k tr) =
        paginationLoop (okFetch (specFetch T P)) fu
          (PagState.mk (j + 1 + 1)
            (acc ++ List.range' (j * P) (min P (T - j * P)))
            (decide (P * (j + 1) < T)) T (k + 1)
            (tr ++ [decide (P * (j + 1) < T)])) := by
      simp [paginationLoop, okFetch, pagStep, specFetch]
    rw [hstep]
    by_cases hlt : P * (j + 1) < T
    · have hdec : decide (P * (j + 1) < T) = true := decide_eq_true hlt
      have hjc : j + 1 < ceilPages T P := (lt_ceilPages_iff T P (j + 1) hP).mpr hlt
      rw [hdec]
      have hfuel' : max (j + 1 + 1) (ceilPages T P) + 2 - (j + 1 + 1) ≤ fu := by
        omega
      rw [ih (j + 1) (acc ++ List.range' (j * P) (min P (T - j * P))) T (k + 1)
        (tr ++ [true]) hfuel']
      have hmulsucc : P * (j + 1) = P * j + P := Nat.mul_succ P j
      have hco : j * P = P * j := Nat.mul_comm j P
      have hmin : min P (T - j * P) = P := by
        rw [hco]; omega
      simp only [Except.ok.injEq, Prod.mk.injEq, PagState.mk.injEq]
      refine ⟨⟨?_, ?_, trivial, trivial, ?_, ?_⟩, trivial⟩
      · omega
      · rw [hmin, List.append_assoc]
        congr 1
        have hj1 : (j + 1) * P = j * P + P := Nat.succ_mul j P
        rw [hj1, List.range'_append_1]
        congr 1
        omega
      · omega
      · have hcount : max (j + 1) (ceilPages T P) - j =
            (max (j + 1 + 1) (ceilPages T P) - (j + 1)) + 1 := by omega
        rw [hcount, List.range'_succ, List.map_cons, hdec]
        simp
    · have hdec : decide (P * (j + 1) < T) = false := decide_eq_false hlt
      have hjc : ¬ (j + 1 < ceilPages T P) := fun hcon =>
        hlt ((lt_ceilPages_iff T P (j + 1) hP).mp hcon)
      rw [hdec]
      have hfu : 1 ≤ fu := by
        have := Nat.le_max_left (j + 1) (ceilPages T P)
        omega
      obtain ⟨fv, rfl⟩ : ∃ fv, fu = fv + 1 := ⟨fu - 1, by omega⟩
      have hstop : paginationLoop (okFetch (specFetch T P)) (fv + 1)
          (PagState.mk (j + 1 + 1)
            (acc ++ List.range' (j * P) (min P (T - j * P)))
            false T (k + 1) (tr ++ [false])) =
          Except.ok (PagState.mk (j + 1 + 1)
            (acc ++ List.range' (j * P) (min P (T - j * P)))
            false T (k + 1) (tr ++ [false]), true) := by
        simp [paginationLoop]
      rw [hstop]
      have hmax : max (j + 1) (ceilPages T P) = j + 1 := by omega
      have hmulsucc : P * (j + 1) = P * j + P := Nat.mul_succ P j
      have hco : j * P = P * j := Nat.mul_comm j P
      have hmin : min P (T - j * P) = T - j * P := by
        rw [hco]; omega
      simp only [Except.ok.injEq, Prod.mk.injEq, PagState.mk.injEq]
      refine ⟨⟨?_, ?_, trivial, trivial, ?_, ?_⟩, trivial⟩
      · omega
      · rw [hmin]
      · omega
      · rw [hmax, Nat.add_sub_cancel_left, List.range'_one, List.map_singleton,
          hdec]

/-- C1: under the assumed fetch oracle (each page echoes the requested page
number and page size and returns exactly `min P remaining` entries), the
aggregator terminates having issued exactly `max 1 (ceil T P)` fetches —
`ceil(T/P)`, but at least one even when `T = 0` — with the concatenated
collected sequence of length `T` (indeed equal to `List.range T`) and the
recorded `has_next` values being `P·q < T` for pages `q = 1, 2, ...`; in
particular for `T = 45`, `P = 20` it performs 3 fetches and the successive
`has_next` values are `[true, true, false]`. -/
theorem pagination_completeness :
    (∀ T P : Nat, 0 < P →
       paginationLoop (okFetch (specFetch T P)) (max 1 (ceilPages T P) + 2)
           (initState Nat) =
         Except.ok (PagState.mk (max 1 (ceilPages T P) + 1) (List.range T)
           false T (max 1 (ceilPages T P))
           ((List.range' 1 (max 1 (ceilPages T P))).map
             (fun q => decide (P * q < T))), true)
       ∧ (List.range T).length = T)
    ∧ paginationLoop (okFetch (specFetch 45 20)) 5 (initState Nat) =
        Except.ok (PagState.mk 4 (List.range 45) false 45 3
          [true, true, false], true) := by
  constructor
  · intro T P hP
    refine ⟨?_, by simp⟩
    have h := paginationLoop_specFetch_run T P hP
      (max 1 (ceilPages T P) + 2) 0 [] 0 0 [] (by omega)
    simpa [initState, List.range_eq_range'] using h
  · rfl

/-- C1 witness: the property instantiated at the scenario `T = 45`,
`P = 20`. -/
theorem pagination_completeness_witness :
    0 < 20 ∧
    (paginationLoop (okFetch (specFetch 45 20)) (max 1 (ceilPages 45 20) + 2)
        (initState Nat) =
       Except.ok (PagState.mk (max 1 (ceilPages 45 20) + 1) (List.range 45)
         false 45 (max 1 (ceilPages 45 20))
         ((List.range' 1 (max 1 (ceilPages 45 20))).map
           (fun q => decide (20 * q < 45))), true)
     ∧ (List.range 45).length = 45) :=
  ⟨by decide, pagination_completeness.1 45 20 (by decide)⟩
